import Mathlib

/-!
Verification of the MLHD cleaning script (`src/clean_master_multithreaded.py`).

This file gives a shallow embedding of the script's identifier-resolution
pipeline (`process_df`), its batching helper (`chunker`), and the observable
behaviour of the `driver` loop (write sequence, per-chunk event trace, and the
log-flush schedule), and proves the testable properties stated in the
specification about them.

Recording / artist / release identifiers are modelled as `String` (MBIDs in
the source); a nullable dataframe cell is an `Option String` (`nan` = `none`).
Reference tables are association lists keyed by identifier, mirroring the
indexed pandas frames (`set_index` + exact-match lookup).
-/

set_option autoImplicit false

namespace MLHD

/-- Modelled from the spec: `io.replace` lives in `lib/io_`, which is not part
of the sources here.  Per §4.2 the resolution lookups are exact-match and a
missing lookup in steps 1–2 is a silent no-op keeping the current value, while
a hit replaces the value with the table's mapped value; a null (`nan`) cell is
absent from every table and passes through. -/
def replace (x : Option String) (table : List (String × String)) : Option String :=
  match x with
  | none => none
  | some s =>
    match table.lookup s with
    | some v => some v
    | none => some s

/-- Modelled from the spec: `io.replace_multi` lives in `lib/io_`, which is not
part of the sources here.  Per §4.2 step 3, a hit returns the associated
(artist id, release id) pair and a miss returns the null pair. -/
def replace_multi (x : Option String) (table : List (String × String × String)) :
    Option String × Option String :=
  match x with
  | none => (none, none)
  | some s =>
    match table.lookup s with
    | some (a, r) => (some a, some r)
    | none => (none, none)

/-- The four MusicBrainz reference tables loaded at startup:
`rec_gid_set` (identity membership set), `MB_rec_redirects` (old → new),
`MB_rec_canonical` (old → new), `MB_artist_credit_list`
(recording_mbid → artist_mbids, release_mbid). -/
structure MBTables where
  rec_gid_set : List String
  rec_redirects : List (String × String)
  rec_canonical : List (String × String)
  artist_credit_list : List (String × String × String)

/-- One listening-event row: `<timestamp, artist_MBID, release_MBID, recording_MBID>`.
All MBID cells are nullable. -/
structure Row where
  timestamp : String
  artist_MBID : Option String
  release_MBID : Option String
  recording_MBID : Option String
deriving DecidableEq, Repr

/-- Membership test `x in rec_gid_set` of the source; a null cell is never a
member of the set of recording gids. -/
def inGidSet (t : MBTables) (x : Option String) : Bool :=
  match x with
  | none => false
  | some s => t.rec_gid_set.contains s

/-- Step 1 of `process_df`: redirect resolution for MBIDs that are not present
in `rec_gid_set` (`io.replace(x, MB_rec_redirects, new) if x not in rec_gid_set
else x`). -/
def step1 (t : MBTables) (x : Option String) : Option String :=
  if inGidSet t x then x else replace x t.rec_redirects

/-- Step 2 of `process_df`: canonical resolution (`io.replace(x,
MB_rec_canonical, new) if io.replace(x, MB_rec_canonical, new) is not nan
else x`). -/
def step2 (t : MBTables) (x : Option String) : Option String :=
  if (replace x t.rec_canonical).isSome then replace x t.rec_canonical else x

/-- Step 3 of `process_df`: artist/release lookup for the resolved recording
MBID (`io.replace_multi(x, MB_artist_credit_list)`). -/
def step3 (t : MBTables) (x : Option String) : Option String × Option String :=
  replace_multi x t.artist_credit_list

/-- The composed recording-id resolution of steps 1 and 2. -/
def resolveId (t : MBTables) (x : Option String) : Option String :=
  step2 t (step1 t x)

/-- The Identifier Resolver: raw recording id ↦ (resolved recording id,
artist id, release id), as `process_df` computes it per row. -/
def resolve (t : MBTables) (x : Option String) :
    Option String × Option String × Option String :=
  let z := resolveId t x
  let ar := step3 t z
  (z, ar.1, ar.2)

/-- `process_df`: the three column-wise passes of the source, in order —
rewrite the `recording_MBID` column by step 1, then by step 2, then derive the
`artist_MBID` and `release_MBID` columns from the resolved recording ids
(positionally aligned, as the `index=df_input.index` assignment does). -/
def process_df (t : MBTables) (df_input : List Row) : List Row :=
  let df1 := df_input.map fun r => { r with recording_MBID := step1 t r.recording_MBID }
  let df2 := df1.map fun r => { r with recording_MBID := step2 t r.recording_MBID }
  let artist_release_mbids := df2.map fun r => step3 t r.recording_MBID
  (df2.zip artist_release_mbids).map fun p =>
    { p.1 with artist_MBID := p.2.1, release_MBID := p.2.2 }

/-- The action of `process_df` on a single row. -/
def processRow (t : MBTables) (r : Row) : Row :=
  let z := resolveId t r.recording_MBID
  let ar := step3 t z
  { r with recording_MBID := z, artist_MBID := ar.1, release_MBID := ar.2 }

/-- `chunker` of the source:
`[input_list[i:i+batch_size] for i in range(0, len(input_list), batch_size)]`.
`range(0, L, n)` has `⌈L / n⌉` elements `0, n, 2n, …`, and the slice
`input_list[i:i+batch_size]` is `take batch_size (drop i input_list)`. -/
def chunker {α : Type} (input_list : List α) (batch_size : Nat) : List (List α) :=
  (List.range ((input_list.length + batch_size - 1) / batch_size)).map
    fun i => (input_list.drop (i * batch_size)).take batch_size

/-- The ordered sequence of (path, cleaned table) writes performed by `driver`:
for each chunk, `load_chunk` loads every path, the chunk's tables are processed
with `process_df`, and `write_chunk` zips the processed tables with the chunk's
paths and writes each table to the location derived from its path.  `load`
abstracts the external `io.load_path` collaborator. -/
def driverWrites (t : MBTables) (load : String → List Row)
    (path_list : List String) (chunk_size : Nat) : List (String × List Row) :=
  (chunker path_list chunk_size).flatMap fun chunk =>
    (((chunk.map load).map (process_df t)).zip chunk).map fun p => (p.2, p.1)

/-- Observable events of the `driver` loop body, indexed by a file's position
inside its chunk. -/
inductive Ev where
  | load (i : Nat)
  | process (i : Nat)
  | write (i : Nat)
  | logEntry
deriving DecidableEq, Repr

/-- The event trace of one `driver` chunk of `k` files, translated from the
source: `load_chunk` runs `io.load_path` eagerly on every path of the chunk;
`df_list = map(lambda x: process_df(x, process_timings), df_list)` builds a
*lazy* Python 3 `map` iterator, so no `process_df` call happens there; then
`write_chunk(df_list, chunk)` iterates `zip(df_list, chunk)`, which pulls one
element of the lazy map (running `process_df` on that file) and immediately
writes it, file by file; finally `io.log_output` emits the chunk's log entry. -/
def chunkTrace (k : Nat) : List Ev :=
  ((List.range k).map Ev.load) ++
    ((List.range k).flatMap fun i => [Ev.process i, Ev.write i]) ++ [Ev.logEntry]

/-- The chunk trace the specification describes: strictly phased — all loads,
then all `process_df` calls, then all writes, then the log entry. -/
def phasedChunkTrace (k : Nat) : List Ev :=
  ((List.range k).map Ev.load) ++ ((List.range k).map Ev.process) ++
    ((List.range k).map Ev.write) ++ [Ev.logEntry]

/-- The running `file_counter` of `driver` after each chunk: per chunk the
source does `file_counter += len(chunk)` and then also `file_counter += 1`. -/
def fileCounterAfter (sizes : List Nat) : Nat :=
  sizes.foldl (fun acc s => acc + s + 1) 0

/-- Whether `driver` flushes the accumulated log after each chunk of
`path_list`: the flush fires when `file_counter % LOG_EPOCH == 0`. -/
def flushSchedule (path_list : List String) (chunk_size epoch : Nat) : List Bool :=
  let sizes := (chunker path_list chunk_size).map List.length
  (List.range sizes.length).map fun j =>
    fileCounterAfter (sizes.take (j + 1)) % epoch == 0

/-! ### Reference tables used to instantiate the universally quantified
theorems below on concrete inputs (the spec's end-to-end examples). -/

def wt1 : MBTables := ⟨["A1"], [("R1", "A1")], [], [("A1", "ART1", "REL1")]⟩

def wt2 : MBTables := ⟨["A1"], [], [("A1", "A2")], [("A2", "ART2", "REL2")]⟩

def wload : String → List Row := fun _ => [⟨"t0", none, none, some "R1"⟩]

/-! ### Helper lemmas -/

/-- `process_df` acts row-wise: the three column passes compose to `processRow`
on each row. -/
lemma map_zip_self {α β : Type _} (g : α → β) :
    ∀ c : List α, (c.map g).zip c = c.map fun a => (g a, a)
  | [] => rfl
  | a :: c => by simp [map_zip_self g c]

lemma process_df_eq (t : MBTables) (df : List Row) :
    process_df t df = df.map (processRow t) := by
  unfold process_df
  simp only [List.map_map]
  rw [List.zip_map']
  simp only [List.map_map]
  rfl

lemma process_df_length (t : MBTables) (df : List Row) :
    (process_df t df).length = df.length := by
  rw [process_df_eq]; exact List.length_map df (processRow t)

/-! ### The resolution-step claims -/

/-- C1: a recording id absent from the identity set, the redirect table, the
canonical table and the artist/release table passes through the Identifier
Resolver unchanged, with a (null, null) artist/release result. -/
theorem resolve_absent_passthrough (t : MBTables) (s : String)
    (_h1 : t.rec_gid_set.contains s = false)
    (h2 : t.rec_redirects.lookup s = none)
    (h3 : t.rec_canonical.lookup s = none)
    (h4 : t.artist_credit_list.lookup s = none) :
    resolve t (some s) = (some s, none, none) := by
  simp [resolve, resolveId, step1, step2, step3, inGidSet, replace, replace_multi,
    h2, h3, h4]

theorem resolve_absent_passthrough_witness :
    wt1.rec_gid_set.contains "UNKNOWN" = false ∧
      wt1.rec_redirects.lookup "UNKNOWN" = none ∧
      wt1.rec_canonical.lookup "UNKNOWN" = none ∧
      wt1.artist_credit_list.lookup "UNKNOWN" = none ∧
      resolve wt1 (some "UNKNOWN") = (some "UNKNOWN", none, none) :=
  ⟨by decide, by decide, by decide, by decide,
    resolve_absent_passthrough wt1 "UNKNOWN" (by decide) (by decide) (by decide) (by decide)⟩

/-- C2: step 1 leaves members of the identity set unchanged, and replaces a
non-member that has a redirect entry with the redirect's mapped value. -/
theorem step1_redirect_resolution (t : MBTables) (s v : String) :
    (t.rec_gid_set.contains s = true → step1 t (some s) = some s) ∧
    (t.rec_gid_set.contains s = false → t.rec_redirects.lookup s = some v →
      step1 t (some s) = some v) := by
  constructor
  · intro h1
    have h1m : s ∈ t.rec_gid_set := by simpa using h1
    simp [step1, inGidSet, h1m]
  · intro h1 h2
    have h1m : s ∉ t.rec_gid_set := by simpa using h1
    simp [step1, inGidSet, replace, h1m, h2]

theorem step1_redirect_resolution_witness :
    (wt1.rec_gid_set.contains "A1" = true ∧ step1 wt1 (some "A1") = some "A1") ∧
      (wt1.rec_gid_set.contains "R1" = false ∧ wt1.rec_redirects.lookup "R1" = some "A1" ∧
        step1 wt1 (some "R1") = some "A1") :=
  ⟨⟨by decide, (step1_redirect_resolution wt1 "A1" "A1").1 (by decide)⟩,
    ⟨by decide, by decide,
      (step1_redirect_resolution wt1 "R1" "A1").2 (by decide) (by decide)⟩⟩

/-- C3: step 2 replaces an id that has a canonical entry with the canonical
mapped value, and otherwise (no entry, or a null cell) leaves it unchanged. -/
theorem step2_canonical_resolution (t : MBTables) (s v : String) :
    (t.rec_canonical.lookup s = some v → step2 t (some s) = some v) ∧
    (t.rec_canonical.lookup s = none → step2 t (some s) = some s) ∧
    step2 t none = none := by
  refine ⟨fun h => ?_, fun h => ?_, ?_⟩
  · simp [step2, replace, h]
  · simp [step2, replace, h]
  · simp [step2, replace]

theorem step2_canonical_resolution_witness :
    (wt2.rec_canonical.lookup "A1" = some "A2" ∧ step2 wt2 (some "A1") = some "A2") ∧
      (wt2.rec_canonical.lookup "B7" = none ∧ step2 wt2 (some "B7") = some "B7") :=
  ⟨⟨by decide, (step2_canonical_resolution wt2 "A1" "A2").1 (by decide)⟩,
    ⟨by decide, (step2_canonical_resolution wt2 "B7" "A2").2.1 (by decide)⟩⟩

/-- C4: step 3 returns the exact (artist id, release id) pair associated with
an id present in the artist/release table, and the null pair for an id (or a
null cell) that is absent — a silent null result, never an error. -/
theorem step3_artist_release_resolution (t : MBTables) (s a r : String) :
    (t.artist_credit_list.lookup s = some (a, r) → step3 t (some s) = (some a, some r)) ∧
    (t.artist_credit_list.lookup s = none → step3 t (some s) = (none, none)) ∧
    step3 t none = (none, none) := by
  refine ⟨fun h => ?_, fun h => ?_, ?_⟩
  · simp [step3, replace_multi, h]
  · simp [step3, replace_multi, h]
  · simp [step3, replace_multi]

theorem step3_artist_release_resolution_witness :
    (wt1.artist_credit_list.lookup "A1" = some ("ART1", "REL1") ∧
      step3 wt1 (some "A1") = (some "ART1", some "REL1")) ∧
      (wt1.artist_credit_list.lookup "R1" = none ∧
        step3 wt1 (some "R1") = (none, none)) :=
  ⟨⟨by decide, (step3_artist_release_resolution wt1 "A1" "ART1" "REL1").1 (by decide)⟩,
    ⟨by decide, (step3_artist_release_resolution wt1 "R1" "ART1" "REL1").2.1 (by decide)⟩⟩

/-- C5: `process_df` preserves the row count and the row order of its input:
the output has the same length, and its i-th row is the resolution of the
input's i-th row. -/
theorem process_df_row_count_order (t : MBTables) (df : List Row) :
    (process_df t df).length = df.length ∧
      process_df t df = df.map (processRow t) :=
  ⟨process_df_length t df, process_df_eq t df⟩

/-- C9: an id that is a member of the identity set and has no canonical entry
mapping it elsewhere is a fixed point of the recording-id resolution, so
re-running the resolution steps returns it unchanged. -/
theorem resolveId_fixed_point (t : MBTables) (s : String)
    (h1 : t.rec_gid_set.contains s = true)
    (h2 : t.rec_canonical.lookup s = none ∨ t.rec_canonical.lookup s = some s) :
    resolveId t (some s) = some s ∧
      resolveId t (resolveId t (some s)) = resolveId t (some s) := by
  have h1m : s ∈ t.rec_gid_set := by simpa using h1
  have hfix : resolveId t (some s) = some s := by
    rcases h2 with h2 | h2 <;>
      simp [resolveId, step1, step2, inGidSet, replace, h1m, h2]
  exact ⟨hfix, by rw [hfix, hfix]⟩

theorem resolveId_fixed_point_witness :
    wt1.rec_gid_set.contains "A1" = true ∧ wt1.rec_canonical.lookup "A1" = none ∧
      resolveId wt1 (some "A1") = some "A1" :=
  ⟨by decide, by decide,
    (resolveId_fixed_point wt1 "A1" (by decide) (Or.inl (by decide))).1⟩

/-- C10: `process_df` never touches the timestamp column — every output row
keeps the timestamp of the corresponding input row (only the `recording_MBID`,
`artist_MBID` and `release_MBID` columns are reassigned). -/
theorem process_df_preserves_timestamp (t : MBTables) (df : List Row) (i : Nat)
    (h1 : i < df.length) (h2 : i < (process_df t df).length) :
    ((process_df t df).get ⟨i, h2⟩).timestamp = (df.get ⟨i, h1⟩).timestamp := by
  simp only [List.get_eq_getElem]
  have hrw : process_df t df = df.map (processRow t) := process_df_eq t df
  rw [List.getElem_of_eq hrw, List.getElem_map]
  rfl

theorem process_df_preserves_timestamp_witness :
    0 < ([⟨"t0", none, none, some "R1"⟩] : List Row).length ∧
      0 < (process_df wt1 [⟨"t0", none, none, some "R1"⟩]).length ∧
      ((process_df wt1 [⟨"t0", none, none, some "R1"⟩]).get ⟨0, by decide⟩).timestamp =
        (([⟨"t0", none, none, some "R1"⟩] : List Row).get ⟨0, by decide⟩).timestamp :=
  ⟨by decide, by decide,
    process_df_preserves_timestamp wt1 [⟨"t0", none, none, some "R1"⟩] 0 (by decide) (by decide)⟩

/-! ### Chunking and the driver write sequence -/

lemma chunker_nil {α : Type} (n : Nat) : chunker ([] : List α) n = [] := by
  unfold chunker
  have h : (List.length ([] : List α) + n - 1) / n = 0 := by
    simp only [List.length_nil, Nat.zero_add]
    rcases n with _ | m
    · simp
    · exact Nat.div_eq_of_lt (by omega)
  rw [h]
  simp

lemma chunker_cons {α : Type} {l : List α} {n : Nat} (hn : 0 < n) (hl : l ≠ []) :
    chunker l n = l.take n :: chunker (l.drop n) n := by
  have hL : 0 < l.length := List.length_pos.mpr hl
  have hk : (l.length + n - 1) / n = (l.length - 1) / n + 1 := by
    have h1 : l.length + n - 1 = l.length - 1 + n := by omega
    rw [h1, Nat.add_div_right _ hn]
  have hk2 : ((l.drop n).length + n - 1) / n = (l.length - 1) / n := by
    rw [List.length_drop]
    rcases Nat.le_total n l.length with h | h
    · congr 1
      omega
    · have h2 : l.length - n = 0 := by omega
      rw [h2, Nat.div_eq_of_lt (by omega), Nat.div_eq_of_lt (by omega)]
  unfold chunker
  rw [hk, hk2, List.range_succ_eq_map, List.map_cons, List.map_map]
  refine congrArg₂ _ (by simp) (List.map_congr_left fun i _ => ?_)
  simp only [Function.comp_apply, List.drop_drop]
  congr 2
  rw [Nat.succ_mul]
  ring

lemma chunker_flatten {α : Type} (n : Nat) (hn : 0 < n) :
    ∀ l : List α, (chunker l n).flatten = l
  | [] => by rw [chunker_nil]; rfl
  | a :: l => by
    rw [chunker_cons hn (by simp), List.flatten_cons,
      chunker_flatten n hn ((a :: l).drop n)]
    exact List.take_append_drop n (a :: l)
termination_by l => l.length
decreasing_by simp [List.length_drop]; omega

lemma chunker_mem_length_le {α : Type} {n : Nat} {l : List α} {c : List α}
    (hc : c ∈ chunker l n) : c.length ≤ n := by
  unfold chunker at hc
  simp only [List.mem_map, List.mem_range] at hc
  obtain ⟨i, -, rfl⟩ := hc
  simp

lemma chunker_dropLast_full {α : Type} (n : Nat) (hn : 0 < n) :
    ∀ l : List α, ∀ c ∈ (chunker l n).dropLast, c.length = n
  | [] => by rw [chunker_nil]; intro c hc; simp at hc
  | a :: l => by
    intro c hc
    rw [chunker_cons hn (by simp)] at hc
    by_cases hd : (a :: l).drop n = []
    · rw [hd, chunker_nil] at hc
      simp at hc
    · have hne : chunker ((a :: l).drop n) n ≠ [] := by
        rw [chunker_cons hn hd]
        simp
      rw [List.dropLast_cons_of_ne_nil hne] at hc
      rcases List.mem_cons.mp hc with rfl | hc
      · have hlen : 0 < ((a :: l).drop n).length := List.length_pos.mpr hd
        simp only [List.length_drop, List.length_cons] at hlen
        simp only [List.length_take, List.length_cons]
        omega
      · exact chunker_dropLast_full n hn ((a :: l).drop n) c hc
termination_by l => l.length
decreasing_by simp [List.length_drop]; omega

lemma flatMap_map_flatten {α β : Type _} (f : α → β) :
    ∀ L : List (List α), (L.flatMap fun c => c.map f) = L.flatten.map f
  | [] => rfl
  | c :: L => by simp [flatMap_map_flatten f L]

lemma driverWrites_eq (t : MBTables) (load : String → List Row)
    (l : List String) (n : Nat) (hn : 0 < n) :
    driverWrites t load l n = l.map fun p => (p, process_df t (load p)) := by
  unfold driverWrites
  have hin : ∀ c : List String,
      ((((c.map load).map (process_df t)).zip c).map fun p => (p.2, p.1)) =
        c.map fun p => (p, process_df t (load p)) := by
    intro c
    rw [List.map_map, map_zip_self, List.map_map]
    rfl
  simp only [hin]
  rw [flatMap_map_flatten, chunker_flatten n hn l]

/-- C6: for a positive batch size, `chunker` cuts the file list into contiguous
batches of exactly the batch size except a possibly shorter last batch,
concatenating the batches restores the original list, and the driver writes
each input file's cleaned table exactly once, paired with that input's path —
no duplicates, no omissions. -/
theorem chunker_driver_exactly_once (t : MBTables) (load : String → List Row)
    (l : List String) (n : Nat) (hn : 0 < n) :
    (∀ c ∈ (chunker l n).dropLast, c.length = n) ∧
      (∀ c ∈ chunker l n, c.length ≤ n) ∧
      (chunker l n).flatten = l ∧
      driverWrites t load l n = l.map fun p => (p, process_df t (load p)) :=
  ⟨chunker_dropLast_full n hn l, fun _ hc => chunker_mem_length_le hc,
    chunker_flatten n hn l, driverWrites_eq t load l n hn⟩

theorem chunker_driver_exactly_once_witness :
    0 < 2 ∧ (chunker ["f1", "f2", "f3"] 2).flatten = ["f1", "f2", "f3"] ∧
      driverWrites wt1 wload ["f1", "f2", "f3"] 2 =
        List.map (fun p => (p, process_df wt1 (wload p))) ["f1", "f2", "f3"] :=
  ⟨by decide,
    (chunker_driver_exactly_once wt1 wload ["f1", "f2", "f3"] 2 (by decide)).2.2.1,
    (chunker_driver_exactly_once wt1 wload ["f1", "f2", "f3"] 2 (by decide)).2.2.2⟩

/-! ### The driver's chunk event trace and log-flush schedule -/

/-- C7: the claim of strictly phased batches fails on the code.  Because the
source builds `df_list` with a lazy `map` and `write_chunk` consumes it through
`zip`, a 2-file chunk runs as load 0, load 1, process 0, **write 0**,
process 1, write 1 — the first file is written before `process_df` has run on
the second file, unlike the phased trace the specification describes. -/
theorem chunkTrace_interleaved :
    chunkTrace 2 = [Ev.load 0, Ev.load 1, Ev.process 0, Ev.write 0,
        Ev.process 1, Ev.write 1, Ev.logEntry] ∧
      phasedChunkTrace 2 = [Ev.load 0, Ev.load 1, Ev.process 0, Ev.process 1,
        Ev.write 0, Ev.write 1, Ev.logEntry] ∧
      chunkTrace 2 ≠ phasedChunkTrace 2 := by
  refine ⟨rfl, rfl, ?_⟩
  decide

/-- C8: the claim that the log is flushed exactly after every `LOG_EPOCH` files
fails on the code.  `driver` bumps `file_counter` by `len(chunk)` *and* by one
per chunk, so with two input files, chunk size 2 and epoch 2 the counter is 3
after the only chunk and no flush happens, although the number of files
handled (2) is a multiple of the epoch. -/
theorem flushSchedule_counter_off :
    flushSchedule ["f1", "f2"] 2 2 = [false] ∧
      fileCounterAfter ((chunker ["f1", "f2"] 2).map List.length) = 3 ∧
      ((chunker ["f1", "f2"] 2).map List.length).sum % 2 = 0 := by
  refine ⟨by decide, by decide, by decide⟩

end MLHD
